import Mathlib

/-!
Verification of the tabular Q-learning agent
(`src/lab/agents/q_learning_agent.py`) against its specification.

Shallow embedding conventions:
* `float` values (Q-entries, rewards, hyperparameters) are modelled as `ℚ`
  (exact real arithmetic; the spec itself says "within floating-point
  tolerance", which we idealise).
* Python/numpy exceptions are modelled by `Except PyError`.
* The numpy module-global random generator `np.random` (the source stores
  `self._rng = np.random`, a reference to the module singleton, in every
  instance) is modelled as a single `Rng` value threaded explicitly through
  the operations; it is *not* a field of the agent state, because in the
  source it is not per-instance state.
* numpy indexing semantics is modelled faithfully: integer indices may be
  negative (wrapping from the end), out-of-range indices raise `IndexError`,
  and indexing with `None` (the value of `self._last_state` before any
  `begin_episode`) inserts a new axis instead of raising, so
  `np.argmax(Q[None])` reduces over the flattened table.
-/

/-- Errors raised by the Python runtime / numpy in the modelled code paths. -/
inductive PyError where
  /-- numpy `IndexError`: integer index out of bounds. -/
  | indexError
  /-- `ValueError`: e.g. `np.zeros` with a negative dimension, `np.max` /
  `np.argmax` of an empty array, `randint` with a non-positive bound. -/
  | valueError
  /-- `AttributeError`: reading an attribute that was never assigned. -/
  | attributeError
deriving DecidableEq, Repr

instance {ε α : Type} [DecidableEq ε] [DecidableEq α] : DecidableEq (Except ε α) :=
  fun x y =>
    match x, y with
    | .ok a, .ok b =>
        if h : a = b then .isTrue (by rw [h])
        else .isFalse (by intro hc; cases hc; exact h rfl)
    | .error e, .error f =>
        if h : e = f then .isTrue (by rw [h])
        else .isFalse (by intro hc; cases hc; exact h rfl)
    | .ok _, .error _ => .isFalse (by intro hc; cases hc)
    | .error _, .ok _ => .isFalse (by intro hc; cases hc)

/-- Model of the process-global numpy legacy random generator (`np.random`).
The actual generator is a Mersenne twister; for the purposes of the claims
(determinism under seeding, value ranges, sharedness) only these facts
matter: `seed` puts the generator into a state that is a function of the
seed alone, and each draw is a deterministic function of the current state.
We model the state as the pair (seed, number of draws so far) and each draw
as a hash of that pair. -/
structure Rng where
  seedVal : Nat
  counter : Nat
deriving DecidableEq, Repr

/-- One raw 32-bit draw of the modelled generator. -/
def rngMix (s c : Nat) : Nat :=
  (s * 2654435761 + c * 40503 + 12345) % 4294967296

/-- Advance the generator by one raw draw. -/
def Rng.next (g : Rng) : Nat × Rng :=
  (rngMix g.seedVal g.counter, ⟨g.seedVal, g.counter + 1⟩)

/-- Model of `np.random.seed(s)`: the resulting generator state is a function
of the seed alone, independent of the prior state. -/
def Rng.reseed (s : Nat) : Rng := ⟨s, 0⟩

/-- Model of `np.random.random()`: a draw uniform in `[0, 1)`. -/
def Rng.random (g : Rng) : ℚ × Rng :=
  let (v, g') := g.next
  ((v : ℚ) / 4294967296, g')

/-- Model of `np.random.randint(n)` for `n > 0`: a draw uniform in `[0, n)`.
(`randint` with `n ≤ 0` raises `ValueError`; that check is made at the call
site, where the bound `self._num_actions` is known.) -/
def Rng.randint (n : Nat) (g : Rng) : Nat × Rng :=
  let (v, g') := g.next
  (v % n, g')

/-- Resolve a Python/numpy integer index `i` against a dimension of size `n`:
`0 ≤ i < n` is used as is, `-n ≤ i < 0` wraps to `n + i` (indexing from the
end), anything else raises `IndexError`. -/
def npIndex (n : Nat) (i : Int) : Except PyError Nat :=
  if 0 ≤ i ∧ i < (n : Int) then .ok i.toNat
  else if -(n : Int) ≤ i ∧ i < 0 then .ok ((n : Int) + i).toNat
  else .error .indexError

/-- Model of `np.max` on a 1-D array: the maximum entry; raises `ValueError`
on an empty array. -/
def npMax : List ℚ → Except PyError ℚ
  | [] => .error .valueError
  | x :: xs => .ok (xs.foldl max x)

/-- Index of the first occurrence of the maximum in a non-empty list
(`[]` is never reached with a meaningful result; callers guard emptiness).
This is numpy's documented `argmax` tie-break: "In case of multiple
occurrences of the maximum values, the indices corresponding to the first
occurrence are returned." -/
def argmaxIdx : List ℚ → Nat
  | [] => 0
  | [_] => 0
  | x :: y :: ys =>
      let j := argmaxIdx (y :: ys)
      if x < (y :: ys).getD j 0 then j + 1 else 0

/-- Model of `np.argmax` on a 1-D array: index of the first occurrence of the
maximum; raises `ValueError` on an empty array. -/
def npArgmax (l : List ℚ) : Except PyError Nat :=
  match l with
  | [] => .error .valueError
  | _ :: _ => .ok (argmaxIdx l)

/-- Model of `np.zeros((s, a))`: an `s × a` table of zeros. -/
def npZeros (s a : Nat) : List (List ℚ) :=
  List.replicate s (List.replicate a 0)

/-- The mutable state of one `QLearningAgent` instance.

Fields `_num_actions`, `_num_states`, `_learning_rate`, `_exploration_rate`,
`_discount_factor`, `_last_state` and `_Q` come from
`QLearningAgent.__init__`. The `_rng` field of the source is deliberately
*absent*: it is `np.random`, the module-global generator, modelled as the
separate `Rng` value threaded through the operations.

`eval_mode` and `last_action` are owned by the base class `lab.core.Agent`,
whose source is not in the repository snapshot. Modelled from the spec:
`eval_mode` is a boolean "owned by the base contract", off by default;
`last_action` is "the most recently chosen action index, or undefined before
the first action is taken" — we model "undefined" as `none`, and reading it
while undefined as an `AttributeError`. -/
structure AgentState where
  num_actions : Nat
  num_states : Nat
  learning_rate : ℚ
  exploration_rate : ℚ
  discount_factor : ℚ
  last_state : Option Int
  last_action : Option Nat
  eval_mode : Bool
  Q : List (List ℚ)
deriving DecidableEq, Repr

namespace QLearningAgent

/-- Model of `QLearningAgent.__init__`. No validation is performed by the
source; the only failure point is `np.zeros((num_states, num_actions))`,
which raises `ValueError` when a dimension is negative (a zero dimension is
accepted and yields an empty table). -/
def init (num_actions num_states : Int) (learning_rate : ℚ := 1/2)
    (exploration_rate : ℚ := 1/10) (discount_factor : ℚ := 99/100) :
    Except PyError AgentState :=
  if num_states < 0 ∨ num_actions < 0 then .error .valueError
  else .ok
    { num_actions := num_actions.toNat
      num_states := num_states.toNat
      learning_rate := learning_rate
      exploration_rate := exploration_rate
      discount_factor := discount_factor
      last_state := none
      last_action := none
      eval_mode := false
      Q := npZeros num_states.toNat num_actions.toNat }

/-- Model of `QLearningAgent.seed`: `self._rng.seed(seed)`. Since
`self._rng` is the module-global `np.random`, this re-seeds the shared
generator; the agent's own state is untouched. -/
def seed (_self : AgentState) (s : Nat) (_g : Rng) : Rng :=
  Rng.reseed s

/-- Model of `self._Q[i]` for an integer (or, before any `begin_episode`,
`None`) row index: `None` inserts a new axis, so the subsequent `np.argmax`
reduces over the flattened table; an integer index selects a row with
numpy's wrap/bounds semantics. -/
def qRows (a : AgentState) : Option Int → Except PyError (List ℚ)
  | none => .ok a.Q.flatten
  | some i => do
      let r ← npIndex a.Q.length i
      .ok (a.Q.getD r [])

/-- Model of `QLearningAgent._greedy_action`:
`np.argmax(self._Q[self._last_state])`. -/
def _greedy_action (a : AgentState) : Except PyError Nat := do
  npArgmax (← qRows a a.last_state)

/-- Model of `QLearningAgent._epsilon_greedy_action`. -/
def _epsilon_greedy_action (a : AgentState) (g : Rng) :
    Except PyError (Nat × Rng) := do
  let (x, g') := g.random
  if x < a.exploration_rate then
    if a.num_actions = 0 then .error .valueError
    else
      let (v, g'') := g'.randint a.num_actions
      .ok (v, g'')
  else
    .ok (← _greedy_action a, g')

/-- Model of `QLearningAgent.act`: choose greedily in evaluation mode and
epsilon-greedily otherwise, record the action as `last_action`, return it. -/
def act (a : AgentState) (g : Rng) : Except PyError (Nat × AgentState × Rng) := do
  if a.eval_mode then
    let ac ← _greedy_action a
    .ok (ac, { a with last_action := some ac }, g)
  else
    let (ac, g') ← _epsilon_greedy_action a g
    .ok (ac, { a with last_action := some ac }, g')

/-- Model of `QLearningAgent.begin_episode`: unconditionally records the
observation as `last_state`; the source performs no bounds check and cannot
raise. -/
def begin_episode (a : AgentState) (observation : Int) : AgentState :=
  { a with last_state := some observation }

/-- Model of the single-cell TD update
`self._Q[last_state, last_action] += self._learning_rate * delta` together
with the reads in the two preceding lines, for the case where the episode
cursor holds integer indices `ls` (possibly negative: numpy wraps) and `la`. -/
def tdUpdate (a : AgentState) (reward : ℚ) (nextRow : List ℚ) (ls : Int)
    (la : Nat) : Except PyError (List (List ℚ)) := do
  let target := reward + a.discount_factor * (← npMax nextRow)
  let r ← npIndex a.Q.length ls
  let row := a.Q.getD r []
  let c ← npIndex row.length (la : Int)
  let old := row.getD c 0
  let delta := target - old
  .ok (a.Q.set r (row.set c (old + a.learning_rate * delta)))

/-- Model of `QLearningAgent.learn`.

Reading `self._last_action` before any `act` is modelled from the spec as an
`AttributeError` (the base class `lab.core.Agent` is not in the snapshot;
the spec says `last_action` is "undefined before the first action is
taken").

When `last_state` is `None` (no `begin_episode` yet) numpy's
`Q[None, last_action]` does not raise: `None` inserts a new axis and
`last_action` then indexes the *state* axis, so the `+=` broadcasts the
correction over the whole row `last_action` of Q. -/
def learn (a : AgentState) (reward : ℚ) (observation : Int) :
    Except PyError AgentState := do
  match a.last_action with
  | none => .error .attributeError
  | some la =>
    -- target = reward + self._discount_factor * np.max(self._Q[state])
    let nextRow ← qRows a (some observation)
    match a.last_state with
    | some ls => do
      let Q' ← tdUpdate a reward nextRow ls la
      .ok { a with Q := Q', last_state := some observation }
    | none => do
      -- Q[None, la] is a view of row `la` (la indexes the state axis);
      -- delta is a vector and the += updates every entry of that row.
      let target := reward + a.discount_factor * (← npMax nextRow)
      let r ← npIndex a.Q.length (la : Int)
      let row := a.Q.getD r []
      let row' := row.map (fun v => v + a.learning_rate * (target - v))
      .ok { a with Q := a.Q.set r row', last_state := some observation }

end QLearningAgent

/-- One call made by the external training loop driving an agent. -/
inductive Call where
  | beginEp (observation : Int)
  | doAct
  | doLearn (reward : ℚ) (observation : Int)
deriving DecidableEq, Repr

/-- Drive one agent with a scripted sequence of `begin_episode` / `act` /
`learn` calls, threading the (shared, process-global) generator state.
Returns the sequence of actions emitted by `act`, the final agent state and
the final generator state. A raised exception propagates to the driver, i.e.
the run stops there. -/
def runCalls : AgentState → Rng → List Call → List Nat × AgentState × Rng
  | a, g, [] => ([], a, g)
  | a, g, c :: cs =>
    match c with
    | .beginEp o => runCalls (QLearningAgent.begin_episode a o) g cs
    | .doAct =>
      match QLearningAgent.act a g with
      | .ok (ac, a', g') =>
          let r := runCalls a' g' cs
          (ac :: r.1, r.2)
      | .error _ => ([], a, g)
    | .doLearn rv o =>
      match QLearningAgent.learn a rv o with
      | .ok a' => runCalls a' g cs
      | .error _ => ([], a, g)

/-- A freshly constructed agent with the given hyperparameters, seeded with
`s` via its own `seed` method while the shared generator is in state `g`,
then driven by `calls`. Returns the emitted action sequence and the final
agent state (which includes the final Q table); `none` if construction
fails. -/
def seededRun (num_actions num_states : Int) (lr er df : ℚ) (s : Nat)
    (g : Rng) (calls : List Call) : Option (List Nat × AgentState) :=
  match QLearningAgent.init num_actions num_states lr er df with
  | .error _ => none
  | .ok a =>
      let g1 := QLearningAgent.seed a s g
      let r := runCalls a g1 calls
      some (r.1, r.2.1)

/-! ### Concrete states used by witnesses and counterexamples -/

/-- An arbitrary non-reset state of the shared generator. -/
def gW : Rng := ⟨42, 7⟩

/-- The agent produced by `init 2 2` with default hyperparameters, exactly as
constructed (no `begin_episode` ever called). -/
def freshA : AgentState :=
  ⟨2, 2, 1/2, 1/10, 99/100, none, none, false, [[0, 0], [0, 0]]⟩

/-- A 1-state, 10-action agent with `exploration_rate = 1` (always explore),
positioned at state 0. -/
def agentB : AgentState :=
  ⟨10, 1, 1/2, 1, 99/100, some 0, none, false, [List.replicate 10 0]⟩

/-- A 2×2 agent in evaluation mode with distinguishable rows. -/
def agentC : AgentState :=
  ⟨2, 2, 1/2, 1/10, 99/100, none, none, true, [[0, 1], [5, 0]]⟩

/-- A 2×2 agent mid-episode: cursor at state 0, last action 1. -/
def agentD : AgentState :=
  ⟨2, 2, 1/2, 1/10, 99/100, some 0, some 1, false, [[0, 1], [5, 0]]⟩

/-- A 2×3 agent in evaluation mode with a tie for the row-0 maximum at
indices 1 and 2. -/
def agentE : AgentState :=
  ⟨3, 2, 1/2, 0, 99/100, some 0, none, true, [[1, 2, 2], [0, 0, 0]]⟩

/-! ### Helper lemmas -/

theorem getD_set_self (l : List ℚ) (i : Nat) (a d : ℚ) (h : i < l.length) :
    (l.set i a).getD i d = a := by
  simp [List.getD, List.getElem?_set_self, h]

theorem getD_set_ne (l : List ℚ) (i j : Nat) (a d : ℚ) (h : i ≠ j) :
    (l.set i a).getD j d = l.getD j d := by
  simp [List.getD, List.getElem?_set_ne h]

theorem getDL_set_self (l : List (List ℚ)) (i : Nat) (a d : List ℚ)
    (h : i < l.length) : (l.set i a).getD i d = a := by
  simp [List.getD, List.getElem?_set_self, h]

theorem getDL_set_ne (l : List (List ℚ)) (i j : Nat) (a d : List ℚ)
    (h : i ≠ j) : (l.set i a).getD j d = l.getD j d := by
  simp [List.getD, List.getElem?_set_ne h]

theorem argmaxIdx_cons_cons (x y : ℚ) (ys : List ℚ) :
    argmaxIdx (x :: y :: ys)
      = if x < (y :: ys).getD (argmaxIdx (y :: ys)) 0
        then argmaxIdx (y :: ys) + 1 else 0 := rfl

theorem argmaxIdx_lt_length : ∀ (l : List ℚ), l ≠ [] → argmaxIdx l < l.length
  | [], h => absurd rfl h
  | [_], _ => Nat.zero_lt_one
  | x :: y :: ys, _ => by
      have ih := argmaxIdx_lt_length (y :: ys) (by simp)
      rw [argmaxIdx_cons_cons]
      split
      · simpa using Nat.succ_lt_succ ih
      · simp

theorem argmaxIdx_getD_le :
    ∀ (l : List ℚ) (j : Nat), j < l.length → l.getD j 0 ≤ l.getD (argmaxIdx l) 0
  | [], j, h => by simp at h
  | [x], j, h => by
      have : j = 0 := by simpa using Nat.lt_one_iff.mp (by simpa using h)
      subst this
      simp [argmaxIdx]
  | x :: y :: ys, j, h => by
      have ih := fun k hk => argmaxIdx_getD_le (y :: ys) k hk
      rw [argmaxIdx_cons_cons]
      by_cases hc : x < (y :: ys).getD (argmaxIdx (y :: ys)) 0
      · rw [if_pos hc]
        match j with
        | 0 => simpa using le_of_lt hc
        | k + 1 =>
            have hk : k < (y :: ys).length := by simpa using h
            simpa using ih k hk
      · rw [if_neg hc]
        push_neg at hc
        match j with
        | 0 => simp
        | k + 1 =>
            have hk : k < (y :: ys).length := by simpa using h
            have := (ih k hk).trans hc
            simpa using this

theorem argmaxIdx_getD_lt :
    ∀ (l : List ℚ) (j : Nat), j < argmaxIdx l → l.getD j 0 < l.getD (argmaxIdx l) 0
  | [], j, h => by simp [argmaxIdx] at h
  | [x], j, h => by simp [argmaxIdx] at h
  | x :: y :: ys, j, h => by
      have ih := fun k hk => argmaxIdx_getD_lt (y :: ys) k hk
      rw [argmaxIdx_cons_cons] at h ⊢
      by_cases hc : x < (y :: ys).getD (argmaxIdx (y :: ys)) 0
      · rw [if_pos hc] at h ⊢
        match j with
        | 0 => simpa using hc
        | k + 1 =>
            have hk : k < argmaxIdx (y :: ys) := Nat.lt_of_succ_lt_succ h
            simpa using ih k hk
      · rw [if_neg hc] at h
        omega

theorem foldl_max_le : ∀ (xs : List ℚ) (x v : ℚ), v = x ∨ v ∈ xs → v ≤ xs.foldl max x
  | [], x, v, h => by
      rcases h with h | h
      · simp [h]
      · simp at h
  | y :: ys, x, v, h => by
      rcases h with h | h
      · subst h
        exact le_trans (le_max_left v y) (foldl_max_le ys (max v y) _ (Or.inl rfl))
      · rcases List.mem_cons.mp h with h | h
        · subst h
          exact le_trans (le_max_right x v) (foldl_max_le ys (max x v) _ (Or.inl rfl))
        · exact foldl_max_le ys (max x y) v (Or.inr h)

theorem foldl_max_mem : ∀ (xs : List ℚ) (x : ℚ), xs.foldl max x = x ∨ xs.foldl max x ∈ xs
  | [], x => Or.inl rfl
  | y :: ys, x => by
      rcases foldl_max_mem ys (max x y) with h | h
      · simp only [List.foldl_cons, h]
        rcases max_choice x y with h' | h'
        · exact Or.inl h'
        · exact Or.inr (by simp [h'])
      · exact Or.inr (List.mem_cons_of_mem _ h)

theorem Rng.random_nonneg (g : Rng) : 0 ≤ g.random.1 := by
  unfold Rng.random Rng.next
  positivity

theorem Rng.randint_lt (n : Nat) (g : Rng) (h : 0 < n) : (Rng.randint n g).1 < n := by
  unfold Rng.randint Rng.next
  exact Nat.mod_lt _ h

@[simp] theorem exBind_ok {α β : Type} (a : α) (f : α → Except PyError β) :
    (Except.ok a : Except PyError α) >>= f = f a := rfl

@[simp] theorem exBind_err {α β : Type} (e : PyError) (f : α → Except PyError β) :
    (Except.error e : Except PyError α) >>= f = .error e := rfl

@[simp] theorem exMap_ok {α β : Type} (a : α) (f : α → β) :
    (Except.ok a : Except PyError α).map f = .ok (f a) := rfl

@[simp] theorem exMap_err {α β : Type} (e : PyError) (f : α → β) :
    (Except.error e : Except PyError α).map f = .error e := rfl

theorem npIndex_natCast (n s : Nat) (hs : s < n) : npIndex n (s : Int) = .ok s := by
  unfold npIndex
  rw [if_pos ⟨Int.natCast_nonneg s, by exact_mod_cast hs⟩]
  simp

theorem qRows_some (a : AgentState) (i : Int) :
    QLearningAgent.qRows a (some i)
      = npIndex a.Q.length i >>= fun r => .ok (a.Q.getD r []) := rfl

theorem qRows_natCast (a : AgentState) (s : Nat) (hs : s < a.Q.length) :
    QLearningAgent.qRows a (some (s : Int)) = .ok (a.Q.getD s []) := by
  rw [qRows_some, npIndex_natCast _ _ hs]
  rfl

theorem greedy_action_eq (a : AgentState) (s : Nat)
    (hls : a.last_state = some (s : Int)) (hs : s < a.Q.length) :
    QLearningAgent._greedy_action a = npArgmax (a.Q.getD s []) := by
  unfold QLearningAgent._greedy_action
  rw [hls, qRows_natCast a s hs]
  rfl

theorem npArgmax_ne_nil (l : List ℚ) (h : l ≠ []) : npArgmax l = .ok (argmaxIdx l) := by
  obtain ⟨x, xs, rfl⟩ := List.exists_cons_of_ne_nil h
  rfl

/-! ### Claim theorems -/

/-- C2: for every Q table and valid `last_state`, `act` in evaluation mode
returns the action with the maximum Q-value in row `last_state`; when
several actions tie for the maximum it returns the lowest-index tied action;
the call is deterministic — the generator is not consulted and the only
state change is recording `last_action`. -/
theorem c2_eval_act_first_max (a : AgentState) (g : Rng) (s : Nat)
    (heval : a.eval_mode = true) (hls : a.last_state = some (s : Int))
    (hs : s < a.Q.length) (hrow : a.Q.getD s [] ≠ []) :
    ∃ ac, QLearningAgent.act a g = .ok (ac, { a with last_action := some ac }, g)
      ∧ ac < (a.Q.getD s []).length
      ∧ (∀ j, j < (a.Q.getD s []).length →
          (a.Q.getD s []).getD j 0 ≤ (a.Q.getD s []).getD ac 0)
      ∧ (∀ j, j < ac → (a.Q.getD s []).getD j 0 < (a.Q.getD s []).getD ac 0) := by
  refine ⟨argmaxIdx (a.Q.getD s []), ?_, argmaxIdx_lt_length _ hrow,
    fun j hj => argmaxIdx_getD_le _ j hj, fun j hj => argmaxIdx_getD_lt _ j hj⟩
  unfold QLearningAgent.act
  rw [heval]
  rw [greedy_action_eq a s hls hs, npArgmax_ne_nil _ hrow]
  rfl

/-- Witness for C2 on a concrete row with a tie (row 0 of `agentE` is
`[1, 2, 2]`, so the greedy action is the lower tied index 1). -/
theorem c2_witness :
    ∃ ac, QLearningAgent.act agentE gW = .ok (ac, { agentE with last_action := some ac }, gW)
      ∧ ac < (agentE.Q.getD 0 []).length
      ∧ (∀ j, j < (agentE.Q.getD 0 []).length →
          (agentE.Q.getD 0 []).getD j 0 ≤ (agentE.Q.getD 0 []).getD ac 0)
      ∧ (∀ j, j < ac → (agentE.Q.getD 0 []).getD j 0 < (agentE.Q.getD 0 []).getD ac 0) :=
  c2_eval_act_first_max agentE gW 0 rfl rfl (by decide) (by decide)

/-- C3: two freshly constructed agents with identical hyperparameters, each
seeded with the same value via `seed()` and driven with the identical
sequence of `begin_episode`/`act`/`learn` calls, produce identical action
sequences and identical final Q tables — no matter what state the shared
generator was in when each of the two runs started, because `seed` puts the
generator into a state depending only on the seed value. -/
theorem c3_seeded_determinism (na ns : Int) (lr er df : ℚ) (s : Nat)
    (g g' : Rng) (calls : List Call) :
    seededRun na ns lr er df s g calls = seededRun na ns lr er df s g' calls := rfl

/-- C5 counterexample: the random source is shared process-global state, not
per-instance. Agent `agentB`'s own state and the prior generator state are
identical in the two scenarios; only the seed handed to the *other* agent
`freshA` differs (0 vs 1), yet `agentB`'s next action differs — seeding one
agent does affect the random stream of a coexisting agent. -/
theorem c5_counterexample :
    (QLearningAgent.act agentB (QLearningAgent.seed freshA 0 gW)).map (fun x => x.1)
        = .ok 8
    ∧ (QLearningAgent.act agentB (QLearningAgent.seed freshA 1 gW)).map (fun x => x.1)
        = .ok 9 := by
  constructor <;>
    norm_num [QLearningAgent.act, QLearningAgent._epsilon_greedy_action,
      QLearningAgent.seed, agentB, freshA, Rng.reseed, Rng.random, Rng.randint,
      Rng.next, rngMix]

/-- C5 amended: every agent's `_rng` is the module-global `np.random`
singleton. Seeding through any agent, from any prior generator state,
produces the same shared generator state, which depends only on the seed
value; consequently the determinism property is compositional only for
sequential (not interleaved) runs. -/
theorem c5_amended_shared_generator (a b : AgentState) (s : Nat) (g g' : Rng) :
    QLearningAgent.seed a s g = QLearningAgent.seed b s g'
      ∧ QLearningAgent.seed a s g = Rng.reseed s := ⟨rfl, rfl⟩

/-- C7 counterexample: constructing an agent with `num_states = 0` and
`num_actions = 0` — both non-positive — succeeds (with an empty Q table)
instead of failing with a ConfigurationError. -/
theorem c7_counterexample :
    QLearningAgent.init 0 0
      = .ok ⟨0, 0, 1/2, 1/10, 99/100, none, none, false, []⟩ := rfl

theorem npZeros_flatten_nil (s a : Nat) (h : s = 0 ∨ a = 0) :
    (npZeros s a).flatten = [] := by
  rcases h with rfl | rfl
  · rfl
  · simp [npZeros]

/-- C7 amended: construction performs no validation of `num_states` /
`num_actions`. A negative dimension fails with numpy's `ValueError` from
`np.zeros` (there is no ConfigurationError anywhere in the code), while a
zero dimension constructs successfully with a degenerate empty Q table. -/
theorem c7_amended (na ns : Int) (lr er df : ℚ) (h : na ≤ 0 ∨ ns ≤ 0) :
    (na < 0 ∨ ns < 0 → QLearningAgent.init na ns lr er df = .error .valueError)
    ∧ (0 ≤ na → 0 ≤ ns →
        ∃ a, QLearningAgent.init na ns lr er df = .ok a ∧ a.Q.flatten = []) := by
  constructor
  · intro hneg
    unfold QLearningAgent.init
    rw [if_pos (by tauto)]
  · intro hna hns
    refine ⟨⟨na.toNat, ns.toNat, lr, er, df, none, none, false,
        npZeros ns.toNat na.toNat⟩, ?_, ?_⟩
    · unfold QLearningAgent.init
      rw [if_neg (by omega)]
    · show (npZeros ns.toNat na.toNat).flatten = []
      apply npZeros_flatten_nil
      omega

/-- Witness for C7 amended: `num_actions = -1` raises `ValueError`, while
`num_states = num_actions = 0` constructs an agent with an empty table. -/
theorem c7_amended_witness :
    QLearningAgent.init (-1) 2 (1/2) (1/10) (99/100) = .error .valueError
    ∧ ∃ a, QLearningAgent.init 0 0 (1/2) (1/10) (99/100) = .ok a
        ∧ a.Q.flatten = [] :=
  ⟨(c7_amended (-1) 2 (1/2) (1/10) (99/100) (Or.inl (by decide))).1
      (Or.inl (by decide)),
   (c7_amended 0 0 (1/2) (1/10) (99/100) (Or.inl (by decide))).2
      (by decide) (by decide)⟩

/-- C4 counterexample: a freshly constructed agent on which `begin_episode`
was never called does not fail when `act` is invoked: with evaluation mode
toggled on (the toggle is externally owned), `act` silently returns action 0
— numpy treats the `None` cursor as a new-axis index, so `argmax` reduces
over the flattened all-zero table instead of raising any error. -/
theorem c4_counterexample :
    QLearningAgent.init 2 2 = .ok freshA
    ∧ QLearningAgent.act { freshA with eval_mode := true } gW
        = .ok (0, { freshA with eval_mode := true, last_action := some 0 }, gW) :=
  ⟨rfl, rfl⟩

/-- C4 amended: before any `begin_episode`, `act` raises no InvalidState
error (no such error exists in the code). In evaluation mode, whenever the Q
table is non-empty, it silently computes `np.argmax` of the *flattened* Q
table (numpy new-axis semantics of `Q[None]`), records it as `last_action`,
and returns it. -/
theorem c4_amended_act_silent (a : AgentState) (g : Rng)
    (hls : a.last_state = none) (heval : a.eval_mode = true)
    (hne : a.Q.flatten ≠ []) :
    QLearningAgent.act a g
      = .ok (argmaxIdx a.Q.flatten,
          { a with last_action := some (argmaxIdx a.Q.flatten) }, g) := by
  have hg : QLearningAgent._greedy_action a = .ok (argmaxIdx a.Q.flatten) := by
    unfold QLearningAgent._greedy_action
    rw [hls]
    rw [show QLearningAgent.qRows a none = .ok a.Q.flatten from rfl, exBind_ok]
    exact npArgmax_ne_nil _ hne
  unfold QLearningAgent.act
  rw [heval, if_pos rfl, hg, exBind_ok]

/-- Witness for C4 amended: on `agentC` (no `begin_episode` ever called,
evaluation mode on, table `[[0,1],[5,0]]`), `act` silently returns the
argmax over the flattened table, namely 2. -/
theorem c4_witness :
    QLearningAgent.act agentC gW
      = .ok (2, { agentC with last_action := some 2 }, gW) := by
  have h := c4_amended_act_silent agentC gW rfl rfl (by decide)
  have ha : argmaxIdx agentC.Q.flatten = 2 := by decide
  rw [ha] at h
  exact h

theorem learn_map_q_congr (a : AgentState) (rv : ℚ) (o o' : Int)
    (h : QLearningAgent.qRows a (some o) = QLearningAgent.qRows a (some o')) :
    (QLearningAgent.learn a rv o).map (fun st => st.Q)
      = (QLearningAgent.learn a rv o').map (fun st => st.Q) := by
  unfold QLearningAgent.learn
  cases hla : a.last_action with
  | none => rfl
  | some la =>
    simp only [h]
    cases hq : QLearningAgent.qRows a (some o') with
    | error e => simp [hq]
    | ok nextRow =>
      simp only [hq, exBind_ok]
      cases hls : a.last_state with
      | some ls =>
        cases ht : QLearningAgent.tdUpdate a rv nextRow ls la with
        | error e => simp [ht]
        | ok Qn => simp [ht]
      | none =>
        cases hm : npMax nextRow with
        | error e => simp [hm]
        | ok m =>
          cases hr : npIndex a.Q.length (la : Int) with
          | error e => simp [hm, hr]
          | ok r => simp [hm, hr]

/-- C6 counterexample: the out-of-range observation `-1` passed to
`begin_episode` surfaces no error at all — the agent records it, and the
next evaluation-mode `act` silently reads the *last* row of Q (numpy wraps
negative indices): from cursor `-1` it picks action 0 (row `[5,0]`), while
from cursor `0` it would pick action 1 (row `[0,1]`). -/
theorem c6_counterexample :
    QLearningAgent.begin_episode agentC (-1) = { agentC with last_state := some (-1) }
    ∧ (QLearningAgent.act { agentC with last_state := some (-1) } gW).map (fun x => x.1)
        = .ok 0
    ∧ (QLearningAgent.act { agentC with last_state := some 0 } gW).map (fun x => x.1)
        = .ok 1 :=
  ⟨rfl, rfl, rfl⟩

/-- C6 amended: there is no explicit bounds check. `begin_episode` accepts
any observation without error; in `learn`, an observation outside
`[-num_states, num_states)` surfaces as a numpy `IndexError` only when the
Q row is accessed, and a negative observation in `[-num_states, 0)` silently
indexes from the end: the update reads row `num_states + observation`. -/
theorem c6_amended_no_bounds_check (a : AgentState) (rv : ℚ) (o : Int) (la : Nat)
    (hla : a.last_action = some la) :
    QLearningAgent.begin_episode a o = { a with last_state := some o }
    ∧ (((a.Q.length : Int) ≤ o ∨ o < -(a.Q.length : Int)) →
        QLearningAgent.learn a rv o = .error .indexError)
    ∧ (-(a.Q.length : Int) ≤ o → o < 0 →
        (QLearningAgent.learn a rv o).map (fun st => st.Q)
          = (QLearningAgent.learn a rv ((a.Q.length : Int) + o)).map (fun st => st.Q)) := by
  refine ⟨rfl, ?_, ?_⟩
  · intro ho
    have hidx : npIndex a.Q.length o = .error .indexError := by
      unfold npIndex
      rw [if_neg (by omega), if_neg (by omega)]
    unfold QLearningAgent.learn
    simp only [hla, qRows_some, hidx, exBind_err]
  · intro h1 h2
    apply learn_map_q_congr
    rw [qRows_some, qRows_some]
    have e1 : npIndex a.Q.length o = .ok ((a.Q.length : Int) + o).toNat := by
      unfold npIndex
      rw [if_neg (by omega), if_pos ⟨h1, h2⟩]
    have e2 : npIndex a.Q.length ((a.Q.length : Int) + o)
        = .ok ((a.Q.length : Int) + o).toNat := by
      unfold npIndex
      rw [if_pos (by omega)]
    rw [e1, e2]

/-- Witness for C6 amended on `agentD` (2 states): `begin_episode` accepts
`-1` silently; `learn` with observation 5 raises `IndexError`; `learn` with
observation `-1` produces the same Q table as `learn` with observation 1
(the wrapped index). -/
theorem c6_witness :
    QLearningAgent.begin_episode agentD (-1) = { agentD with last_state := some (-1) }
    ∧ QLearningAgent.learn agentD 1 5 = .error .indexError
    ∧ (QLearningAgent.learn agentD 1 (-1)).map (fun st => st.Q)
        = (QLearningAgent.learn agentD 1 1).map (fun st => st.Q) := by
  refine ⟨(c6_amended_no_bounds_check agentD 1 (-1) 1 rfl).1, ?_, ?_⟩
  · exact (c6_amended_no_bounds_check agentD 1 5 1 rfl).2.1 (Or.inl (by decide))
  · have h := (c6_amended_no_bounds_check agentD 1 (-1) 1 rfl).2.2
      (by decide) (by decide)
    have he : ((agentD.Q.length : Int) + (-1)) = 1 := by decide
    rw [he] at h
    exact h

theorem tdUpdate_eq (a : AgentState) (rv : ℚ) (s la : Nat) (M : ℚ)
    (nextRow : List ℚ) (hM : npMax nextRow = .ok M)
    (hs : s < a.Q.length) (hla : la < (a.Q.getD s []).length) :
    QLearningAgent.tdUpdate a rv nextRow (s : Int) la
      = .ok (a.Q.set s ((a.Q.getD s []).set la
          ((a.Q.getD s []).getD la 0
            + a.learning_rate
              * (rv + a.discount_factor * M - (a.Q.getD s []).getD la 0)))) := by
  unfold QLearningAgent.tdUpdate
  rw [hM]
  simp only [exBind_ok]
  rw [npIndex_natCast _ _ hs]
  simp only [exBind_ok]
  rw [npIndex_natCast _ _ hla]
  simp only [exBind_ok]

/-- C1: with a valid cursor (state `s`, recorded action `la`) and a valid
observation `o`, one `learn(rv, o)` call succeeds and sets `Q[s,la]` to
`Q_old[s,la] + α*(rv + γ*max_a' Q_old[o,a'] - Q_old[s,la])` — where `M`, the
value used by the update, is exactly the maximum of row `o` of the old table
— leaves every other cell of Q unchanged, keeps the table's shape, and
advances the episode cursor `last_state` to `o`. -/
theorem c1_learn_td_update (a : AgentState) (s la o : Nat) (rv : ℚ)
    (hls : a.last_state = some (s : Int)) (hla : a.last_action = some la)
    (hs : s < a.Q.length) (ho : o < a.Q.length)
    (hrow : la < (a.Q.getD s []).length) (hnext : a.Q.getD o [] ≠ []) :
    ∃ M a',
      npMax (a.Q.getD o []) = .ok M
      ∧ M ∈ a.Q.getD o []
      ∧ (∀ v ∈ a.Q.getD o [], v ≤ M)
      ∧ QLearningAgent.learn a rv (o : Int) = .ok a'
      ∧ (a'.Q.getD s []).getD la 0
          = (a.Q.getD s []).getD la 0
            + a.learning_rate
              * (rv + a.discount_factor * M - (a.Q.getD s []).getD la 0)
      ∧ (∀ i j : Nat, ¬(i = s ∧ j = la) →
          (a'.Q.getD i []).getD j 0 = (a.Q.getD i []).getD j 0)
      ∧ a'.last_state = some (o : Int)
      ∧ a'.last_action = some la
      ∧ a'.eval_mode = a.eval_mode
      ∧ a'.Q.length = a.Q.length := by
  obtain ⟨x, xs, hx⟩ := List.exists_cons_of_ne_nil hnext
  have hM : npMax (a.Q.getD o []) = .ok (xs.foldl max x) := by rw [hx]; rfl
  have hmem : xs.foldl max x ∈ a.Q.getD o [] := by
    rw [hx]
    rcases foldl_max_mem xs x with h | h
    · rw [h]; exact List.mem_cons_self _ _
    · exact List.mem_cons_of_mem _ h
  have hub : ∀ v ∈ a.Q.getD o [], v ≤ xs.foldl max x := by
    intro v hv
    rw [hx] at hv
    rcases List.mem_cons.mp hv with h | h
    · exact foldl_max_le xs x v (Or.inl h)
    · exact foldl_max_le xs x v (Or.inr h)
  refine ⟨xs.foldl max x,
    { a with
        Q := a.Q.set s ((a.Q.getD s []).set la
          ((a.Q.getD s []).getD la 0
            + a.learning_rate
              * (rv + a.discount_factor * (xs.foldl max x)
                  - (a.Q.getD s []).getD la 0)))
        last_state := some (o : Int) },
    hM, hmem, hub, ?_, ?_, ?_, rfl, hla ▸ rfl, rfl, by simp⟩
  · unfold QLearningAgent.learn
    simp only [hla]
    rw [qRows_natCast a o ho]
    simp only [exBind_ok, hls]
    rw [tdUpdate_eq a rv s la _ _ hM hs hrow]
    simp only [exBind_ok]
  · show ((a.Q.set s _).getD s []).getD la 0 = _
    rw [getDL_set_self _ _ _ _ hs, getD_set_self _ _ _ _ hrow]
  · intro i j hij
    show ((a.Q.set s _).getD i []).getD j 0 = _
    by_cases hi : i = s
    · subst hi
      have hj : j ≠ la := fun hj => hij ⟨rfl, hj⟩
      rw [getDL_set_self _ _ _ _ hs, getD_set_ne _ _ _ _ _ (fun h => hj h.symm)]
    · rw [getDL_set_ne _ _ _ _ _ (fun h => hi h.symm)]

/-- Witness for C1 on `agentD` (`Q = [[0,1],[5,0]]`, cursor at state 0,
last action 1, α = 1/2, γ = 99/100), learning from reward 1 and
observation 1. -/
theorem c1_witness :
    ∃ M a',
      npMax (agentD.Q.getD 1 []) = .ok M
      ∧ M ∈ agentD.Q.getD 1 []
      ∧ (∀ v ∈ agentD.Q.getD 1 [], v ≤ M)
      ∧ QLearningAgent.learn agentD 1 ((1 : Nat) : Int) = .ok a'
      ∧ (a'.Q.getD 0 []).getD 1 0
          = (agentD.Q.getD 0 []).getD 1 0
            + agentD.learning_rate
              * (1 + agentD.discount_factor * M - (agentD.Q.getD 0 []).getD 1 0)
      ∧ (∀ i j : Nat, ¬(i = 0 ∧ j = 1) →
          (a'.Q.getD i []).getD j 0 = (agentD.Q.getD i []).getD j 0)
      ∧ a'.last_state = some ((1 : Nat) : Int)
      ∧ a'.last_action = some 1
      ∧ a'.eval_mode = agentD.eval_mode
      ∧ a'.Q.length = agentD.Q.length :=
  c1_learn_td_update agentD 0 1 1 1 rfl rfl (by decide) (by decide)
    (by decide) (by decide)

theorem epsilonGreedy_eq (a : AgentState) (g : Rng) :
    QLearningAgent._epsilon_greedy_action a g
      = if g.random.1 < a.exploration_rate then
          (if a.num_actions = 0 then .error .valueError
           else .ok ((g.random.2).randint a.num_actions))
        else QLearningAgent._greedy_action a >>= fun ac => .ok (ac, g.random.2) := rfl

/-- C8: with `exploration_rate = 0`, `act` in training mode returns the same
action as `act` in evaluation mode, for every agent state and every
generator state — the exploration branch is unreachable because a uniform
draw in `[0,1)` is never `< 0`. -/
theorem c8_eps_zero_equiv (a : AgentState) (g : Rng)
    (heps : a.exploration_rate = 0) :
    (QLearningAgent.act { a with eval_mode := false } g).map (fun x => x.1)
      = (QLearningAgent.act { a with eval_mode := true } g).map (fun x => x.1) := by
  have hg1 : QLearningAgent._greedy_action { a with eval_mode := false }
      = QLearningAgent._greedy_action a := rfl
  have hg2 : QLearningAgent._greedy_action { a with eval_mode := true }
      = QLearningAgent._greedy_action a := rfl
  have hnlt : ¬ (g.random.1 < ({ a with eval_mode := false } : AgentState).exploration_rate) := by
    show ¬ (g.random.1 < a.exploration_rate)
    rw [heps]
    exact not_lt.mpr (Rng.random_nonneg g)
  unfold QLearningAgent.act
  rw [show ({ a with eval_mode := false } : AgentState).eval_mode = false from rfl,
      show ({ a with eval_mode := true } : AgentState).eval_mode = true from rfl,
      if_neg Bool.false_ne_true, if_pos rfl, epsilonGreedy_eq, if_neg hnlt, hg1, hg2]
  cases hga : QLearningAgent._greedy_action a with
  | error e => rfl
  | ok ac => rfl

/-- Witness for C8 on `agentE`, whose `exploration_rate` is 0. -/
theorem c8_witness :
    (QLearningAgent.act { agentE with eval_mode := false } gW).map (fun x => x.1)
      = (QLearningAgent.act { agentE with eval_mode := true } gW).map (fun x => x.1) :=
  c8_eps_zero_equiv agentE gW rfl

/-- C9: for a valid `last_state` and a non-degenerate action space, `act`
succeeds in either mode and with any generator state, returns an action in
`[0, num_actions)`, records exactly that action as `last_action`, and
changes nothing else in the agent. -/
theorem c9_act_range (a : AgentState) (g : Rng) (s : Nat)
    (hls : a.last_state = some (s : Int)) (hs : s < a.Q.length)
    (hshape : (a.Q.getD s []).length = a.num_actions)
    (hA : 0 < a.num_actions) :
    ∃ ac a' g', QLearningAgent.act a g = .ok (ac, a', g')
      ∧ ac < a.num_actions
      ∧ a'.last_action = some ac
      ∧ a' = { a with last_action := some ac } := by
  have hrow : a.Q.getD s [] ≠ [] := by
    intro h
    rw [h] at hshape
    simp at hshape
    omega
  have hargmax : argmaxIdx (a.Q.getD s []) < a.num_actions := by
    rw [← hshape]
    exact argmaxIdx_lt_length _ hrow
  have hg : QLearningAgent._greedy_action a = .ok (argmaxIdx (a.Q.getD s [])) := by
    rw [greedy_action_eq a s hls hs]
    exact npArgmax_ne_nil _ hrow
  rcases Bool.eq_false_or_eq_true a.eval_mode with heval | heval
  · refine ⟨argmaxIdx (a.Q.getD s []),
      { a with last_action := some (argmaxIdx (a.Q.getD s [])) }, g,
      ?_, hargmax, rfl, rfl⟩
    unfold QLearningAgent.act
    rw [heval, if_pos rfl, hg, exBind_ok]
  · by_cases hx : g.random.1 < a.exploration_rate
    · refine ⟨((g.random.2).randint a.num_actions).1,
        { a with last_action := some ((g.random.2).randint a.num_actions).1 },
        ((g.random.2).randint a.num_actions).2,
        ?_, Rng.randint_lt _ _ hA, rfl, rfl⟩
      unfold QLearningAgent.act
      rw [heval, if_neg Bool.false_ne_true, epsilonGreedy_eq, if_pos hx,
          if_neg (Nat.pos_iff_ne_zero.mp hA), exBind_ok]
    · refine ⟨argmaxIdx (a.Q.getD s []),
        { a with last_action := some (argmaxIdx (a.Q.getD s [])) }, g.random.2,
        ?_, hargmax, rfl, rfl⟩
      unfold QLearningAgent.act
      rw [heval, if_neg Bool.false_ne_true, epsilonGreedy_eq, if_neg hx, hg,
          exBind_ok, exBind_ok]

/-- Witness for C9 on `agentD` (training mode, ε = 1/10, cursor at state 0,
two actions). -/
theorem c9_witness :
    ∃ ac a' g', QLearningAgent.act agentD gW = .ok (ac, a', g')
      ∧ ac < agentD.num_actions
      ∧ a'.last_action = some ac
      ∧ a' = { agentD with last_action := some ac } :=
  c9_act_range agentD gW 0 rfl (by decide) (by decide) (by decide)

/-- C10: `learn` never reads the evaluation-mode flag (nor the random
source, which it does not even take as an input): toggling `eval_mode` to
any value before a `learn` call yields exactly the same result up to that
same flag value — identical Q update, identical cursor advance, identical
error behavior. -/
theorem c10_learn_ignores_eval_mode (a : AgentState) (rv : ℚ) (o : Int) (b : Bool) :
    QLearningAgent.learn { a with eval_mode := b } rv o
      = (QLearningAgent.learn a rv o).map (fun st => { st with eval_mode := b }) := by
  obtain ⟨nA, nS, lr, er, df, ls0, la0, ev, Qt⟩ := a
  cases la0 with
  | none => rfl
  | some la =>
    show QLearningAgent.learn ⟨nA, nS, lr, er, df, ls0, some la, b, Qt⟩ rv o = _
    unfold QLearningAgent.learn
    have hq : QLearningAgent.qRows ⟨nA, nS, lr, er, df, ls0, some la, b, Qt⟩ (some o)
        = QLearningAgent.qRows ⟨nA, nS, lr, er, df, ls0, some la, ev, Qt⟩ (some o) := rfl
    rw [hq]
    cases hrow : QLearningAgent.qRows ⟨nA, nS, lr, er, df, ls0, some la, ev, Qt⟩ (some o) with
    | error e => rfl
    | ok nr =>
      simp only [exBind_ok]
      have ht : QLearningAgent.tdUpdate ⟨nA, nS, lr, er, df, ls0, some la, b, Qt⟩ rv nr
          = QLearningAgent.tdUpdate ⟨nA, nS, lr, er, df, ls0, some la, ev, Qt⟩ rv nr := rfl
      cases ls0 with
      | some ls =>
        rw [show (QLearningAgent.tdUpdate ⟨nA, nS, lr, er, df, some ls, some la, b, Qt⟩ rv nr :
            Int → Nat → Except PyError (List (List ℚ)))
          = QLearningAgent.tdUpdate ⟨nA, nS, lr, er, df, some ls, some la, ev, Qt⟩ rv nr from rfl]
        cases htd : QLearningAgent.tdUpdate ⟨nA, nS, lr, er, df, some ls, some la, ev, Qt⟩ rv nr ls la with
        | error e => simp [htd]
        | ok Qn => simp [htd]
      | none =>
        cases hm : npMax nr with
        | error e => simp [hm]
        | ok m =>
          cases hr : npIndex Qt.length (la : Int) with
          | error e => simp [hm, hr]
          | ok r => simp [hm, hr]
